import Mathlib

/-!
Verification development for `ingest_and_process_ezproxy.py`
(Learning-Library-Analytics-Project/Data-Processing).

The Python source is shallowly embedded: pandas dataframes become lists of
records, the SQL sink becomes an explicit state record, exceptions become
`Except`, and timestamps on the file-system timeline become integers
(epoch seconds; `datetime.fromtimestamp` is order-preserving and
`timedelta(days=1)` is 86400 seconds).  The log-line regular expression is
embedded via a small backtracking matcher whose alternation order, greedy
and lazy quantifiers and capture-group semantics follow Python's `re`
module (leftmost preference, depth-first backtracking); character classes
are modelled at the ASCII level, which covers every input considered here.
-/

namespace EzProxy

/-! ## Character classes of the Python `re` dialect (ASCII level) -/

/-- Python `\s`: the six ASCII whitespace characters. -/
def pySpace (c : Char) : Bool :=
  c == ' ' || c == '\t' || c == '\n' || c == '\r' || c == '\x0b' || c == '\x0c'

/-- Python `\S`. -/
def pyNonSpace (c : Char) : Bool := !(pySpace c)

/-- Python `\w` (ASCII level): letters, digits, underscore. -/
def pyWord (c : Char) : Bool := c.isAlphanum || c == '_'

/-- Python `.` (no DOTALL): any character except newline. -/
def pyDot (c : Char) : Bool := c != '\n'

/-- Python `\d` (ASCII level). -/
def pyDigit (c : Char) : Bool := c.isDigit

/-- The class `[\w:\/]` used for the `click_time` group. -/
def ctClass (c : Char) : Bool := pyWord c || c == ':' || c == '/'

/-- The class `[+\-]`. -/
def plusMinus (c : Char) : Bool := c == '+' || c == '-'

/-- The class `[^\"]`. -/
def notQuote (c : Char) : Bool := c != '"'

/-! ## Capture groups of `regex_log` -/

/-- The named capture groups of the log regex, in order of appearance. -/
inductive GName where
  | ip_address | username | click_time | request | http_code
  | library_session | referrer | county | state | city | ezproxy_session
  deriving DecidableEq, Repr

/-- Captured substrings of one regex match; `none` means the group did not
participate in the match (pandas `str.extract` renders this as NaN). -/
structure Caps where
  ip_address : Option String := none
  username : Option String := none
  click_time : Option String := none
  request : Option String := none
  http_code : Option String := none
  library_session : Option String := none
  referrer : Option String := none
  county : Option String := none
  state : Option String := none
  city : Option String := none
  ezproxy_session : Option String := none
  deriving DecidableEq, Repr

/-- The all-NaN row produced by `str.extract` when the regex does not match. -/
def emptyCaps : Caps := {}

/-- Store a captured substring in its named group. -/
def setG (g : GName) (v : String) (c : Caps) : Caps :=
  match g with
  | .ip_address => { c with ip_address := some v }
  | .username => { c with username := some v }
  | .click_time => { c with click_time := some v }
  | .request => { c with request := some v }
  | .http_code => { c with http_code := some v }
  | .library_session => { c with library_session := some v }
  | .referrer => { c with referrer := some v }
  | .county => { c with county := some v }
  | .state => { c with state := some v }
  | .city => { c with city := some v }
  | .ezproxy_session => { c with ezproxy_session := some v }

/-! ## A backtracking regex matcher

Only the constructs appearing in the source pattern are represented.  Every
quantifier in the source pattern ranges over a single-character class, so
stars are indexed by a character predicate and consume one character per
iteration (structural recursion on the input). -/

/-- Regex syntax: single-char classes, sequence, alternation (left
preferred), greedy option, greedy star, lazy star, exact repetition of a
class, and named capture groups. -/
inductive RE where
  | eps : RE
  | cls (p : Char → Bool) : RE
  | seq (a b : RE) : RE
  | alt (a b : RE) : RE
  | opt (r : RE) : RE
  | starG (p : Char → Bool) : RE
  | starL (p : Char → Bool) : RE
  | rep (n : Nat) (p : Char → Bool) : RE
  | grp (g : GName) (r : RE) : RE

/-- Greedy star over a class: longest first, then shorter, then none. -/
def sgRun (p : Char → Bool) : List Char → Caps →
    (List Char → Caps → Option Caps) → Option Caps
  | [], cps, k => k [] cps
  | c :: t, cps, k =>
    if p c then (sgRun p t cps k).orElse (fun _ => k (c :: t) cps)
    else k (c :: t) cps

/-- Lazy star over a class: empty first, then longer. -/
def slRun (p : Char → Bool) : List Char → Caps →
    (List Char → Caps → Option Caps) → Option Caps
  | s, cps, k =>
    (k s cps).orElse (fun _ =>
      match s with
      | [] => none
      | c :: t => if p c then slRun p t cps k else none)

/-- Exactly `n` characters of class `p`. -/
def repRun (p : Char → Bool) : Nat → List Char → Caps →
    (List Char → Caps → Option Caps) → Option Caps
  | 0, s, cps, k => k s cps
  | _ + 1, [], _, _ => none
  | n + 1, c :: t, cps, k => if p c then repRun p n t cps k else none

/-- The substring consumed between suffix `s` and the later suffix `s2`. -/
def consumed (s s2 : List Char) : String :=
  String.mk (s.take (s.length - s2.length))

/-- CPS backtracking matcher.  `Option.orElse` realises Python's
depth-first backtracking order: the first alternative/greedy choice is
explored fully before the next is tried. -/
def mrun : RE → List Char → Caps → (List Char → Caps → Option Caps) →
    Option Caps
  | .eps, s, cps, k => k s cps
  | .cls p, s, cps, k =>
    match s with
    | [] => none
    | c :: t => if p c then k t cps else none
  | .seq a b, s, cps, k => mrun a s cps (fun s2 c2 => mrun b s2 c2 k)
  | .alt a b, s, cps, k =>
    (mrun a s cps k).orElse (fun _ => mrun b s cps k)
  | .opt r, s, cps, k => (mrun r s cps k).orElse (fun _ => k s cps)
  | .starG p, s, cps, k => sgRun p s cps k
  | .starL p, s, cps, k => slRun p s cps k
  | .rep n p, s, cps, k => repRun p n s cps k
  | .grp g r, s, cps, k =>
    mrun r s cps (fun s2 c2 => k s2 (setG g (consumed s s2) c2))

/-- Match a `^...$`-anchored pattern against a whole line, returning the
captures of the first (leftmost-preference) match. -/
def reMatch (r : RE) (line : String) : Option Caps :=
  mrun r line.data emptyCaps (fun s c =>
    match s with
    | [] => some c
    | _ :: _ => none)

/-- Right-nested sequence of a list of regex items. -/
def seqList : List RE → RE
  | [] => .eps
  | [r] => r
  | r :: rest => .seq r (seqList rest)

/-- A single literal character. -/
def litR (c : Char) : RE := .cls (fun x => x == c)

/-- `\S+` -/
def plusNonSpace : RE := .seq (.cls pyNonSpace) (.starG pyNonSpace)

/-! ## The source pattern

`regex_log` from `format_ezproxy` (source line 163):

`^(?P<ip_address>\S+) \S+ (?P<username>\S+) \[(?P<click_time>[\w:\/]+\s[+\-]\d{4})\] "(?P<request>.*)?\s?" (?P<http_code>\d{3}|-) (?:\d+|-\s?) (?P<library_session>\S+) (?P<referrer>.+) "?\\?"[^\"]*?"\\?"? (?P<county>.*?|\s) (?P<state>.*?|\s) (?P<city>.*?|\s)(?:\s(?P<ezproxy_session>\S{22}|-))?$`
-/

/-- The embedded log-line pattern, item by item in source order. -/
def regex_log : RE := seqList [
  .grp .ip_address plusNonSpace,                        -- (?P<ip_address>\S+)
  litR ' ',
  plusNonSpace,                                         -- \S+
  litR ' ',
  .grp .username plusNonSpace,                          -- (?P<username>\S+)
  litR ' ', litR '[',
  .grp .click_time (seqList                             -- (?P<click_time>[\w:\/]+\s[+\-]\d{4})
    [.seq (.cls ctClass) (.starG ctClass), .cls pySpace,
     .cls plusMinus, .rep 4 pyDigit]),
  litR ']', litR ' ', litR '"',
  .opt (.grp .request (.starG pyDot)),                  -- (?P<request>.*)?
  .opt (.cls pySpace),                                  -- \s?
  litR '"', litR ' ',
  .grp .http_code (.alt (.rep 3 pyDigit) (litR '-')),   -- (?P<http_code>\d{3}|-)
  litR ' ',
  .alt (.seq (.cls pyDigit) (.starG pyDigit))           -- (?:\d+|-\s?)
       (.seq (litR '-') (.opt (.cls pySpace))),
  litR ' ',
  .grp .library_session plusNonSpace,                   -- (?P<library_session>\S+)
  litR ' ',
  .grp .referrer (.seq (.cls pyDot) (.starG pyDot)),    -- (?P<referrer>.+)
  litR ' ',
  .opt (litR '"'), .opt (litR '\\'), litR '"',          -- "?\\?"
  .starL notQuote,                                      -- [^\"]*?
  litR '"', .opt (litR '\\'), .opt (litR '"'),          -- "\\?"?
  litR ' ',
  .grp .county (.alt (.starL pyDot) (.cls pySpace)),    -- (?P<county>.*?|\s)
  litR ' ',
  .grp .state (.alt (.starL pyDot) (.cls pySpace)),     -- (?P<state>.*?|\s)
  litR ' ',
  .grp .city (.alt (.starL pyDot) (.cls pySpace)),      -- (?P<city>.*?|\s)
  .opt (.seq (.cls pySpace)                             -- (?:\s(?P<ezproxy_session>\S{22}|-))?
    (.grp .ezproxy_session (.alt (.rep 22 pyNonSpace) (litR '-'))))
]

/-! ## Timestamp normalization

Source lines 178-179:
`df_logs.click_time = df_logs.click_time.str.extract("([0-9]{2}/[a-zA-Z]{3}/[0-9]{4}:[0-9]{2}:[0-9]{2}:[0-9]{2}).*")`
`df_logs.click_time = pd.to_datetime(df_logs.click_time, format = "%d/%b/%Y:%H:%M:%S")`
-/

/-- Does the canonical date-time shape
`[0-9]{2}/[a-zA-Z]{3}/[0-9]{4}:[0-9]{2}:[0-9]{2}:[0-9]{2}` match at the head
of this suffix?  (The trailing `.*` of the extraction pattern always
matches and captures nothing.) -/
def tsAt (l : List Char) : Bool :=
  match l with
  | d1 :: d2 :: '/' :: a1 :: a2 :: a3 :: '/' :: y1 :: y2 :: y3 :: y4 ::
      ':' :: h1 :: h2 :: ':' :: n1 :: n2 :: ':' :: x1 :: x2 :: _ =>
    d1.isDigit && d2.isDigit && a1.isAlpha && a2.isAlpha && a3.isAlpha &&
    y1.isDigit && y2.isDigit && y3.isDigit && y4.isDigit &&
    h1.isDigit && h2.isDigit && n1.isDigit && n2.isDigit &&
    x1.isDigit && x2.isDigit
  | _ => false

/-- Leftmost-position search for the canonical date-time substring
(`Series.str.extract` uses `re.search` semantics); the captured group is
exactly the 20-character date-time prefix at the match position. -/
def innerScan : List Char → Option String
  | [] => none
  | c :: t => if tsAt (c :: t) then some (String.mk ((c :: t).take 20)) else innerScan t

/-- `str.extract` of the canonical date-time substring from one field. -/
def innerExtract (s : String) : Option String := innerScan s.data

/-- A timezone-naive timestamp (result of `datetime.strptime`). -/
structure DT where
  year : Nat
  month : Nat
  day : Nat
  hour : Nat
  minute : Nat
  second : Nat
  deriving DecidableEq, Repr

/-- ASCII lower-casing of one character. -/
def lcChar (c : Char) : Char :=
  if 'A' ≤ c && c ≤ 'Z' then Char.ofNat (c.toNat + 32) else c

/-- ASCII lower-casing of a string. -/
def lcString (m : String) : String := String.mk (m.data.map lcChar)

/-- `%b`: case-insensitive abbreviated month names. -/
def monthNum (m : String) : Option Nat :=
  match lcString m with
  | "jan" => some 1 | "feb" => some 2 | "mar" => some 3 | "apr" => some 4
  | "may" => some 5 | "jun" => some 6 | "jul" => some 7 | "aug" => some 8
  | "sep" => some 9 | "oct" => some 10 | "nov" => some 11 | "dec" => some 12
  | _ => none

/-- Gregorian leap year. -/
def isLeap (y : Nat) : Bool := (y % 4 == 0 && y % 100 != 0) || y % 400 == 0

/-- Days in a Gregorian month. -/
def daysInMonth (y m : Nat) : Nat :=
  if m == 2 then (if isLeap y then 29 else 28)
  else if m == 4 || m == 6 || m == 9 || m == 11 then 30
  else 31

/-- Numeric value of a two-digit string fragment. -/
def d2v (a b : Char) : Nat := (a.toNat - 48) * 10 + (b.toNat - 48)

/-- `datetime.strptime(s, "%d/%b/%Y:%H:%M:%S")`: `none` models the raised
`ValueError` (unmatched layout, unknown month name, day out of range for
the month, or field out of range). -/
def strptimeLog (s : String) : Option DT :=
  match s.data with
  | [d1, d2, '/', a1, a2, a3, '/', y1, y2, y3, y4,
     ':', h1, h2, ':', n1, n2, ':', x1, x2] =>
    if d1.isDigit && d2.isDigit && y1.isDigit && y2.isDigit && y3.isDigit &&
       y4.isDigit && h1.isDigit && h2.isDigit && n1.isDigit && n2.isDigit &&
       x1.isDigit && x2.isDigit then
      match monthNum (String.mk [a1, a2, a3]) with
      | none => none
      | some mo =>
        let day := d2v d1 d2
        let yr := d2v y1 y2 * 100 + d2v y3 y4
        let hh := d2v h1 h2
        let mm := d2v n1 n2
        let ss := d2v x1 x2
        if 1 ≤ day && day ≤ 31 && hh ≤ 23 && mm ≤ 59 && ss ≤ 59 &&
           day ≤ daysInMonth yr mo then
          some ⟨yr, mo, day, hh, mm, ss⟩
        else none
    else none
  | _ => none

/-- Decidable equality on `Except` (needed to evaluate the model on
concrete inputs). -/
def exceptDecEq {ε α : Type} [DecidableEq ε] [DecidableEq α] :
    DecidableEq (Except ε α) := fun a b =>
  match a, b with
  | .error e, .error f =>
    if h : e = f then .isTrue (h ▸ rfl)
    else .isFalse (fun hx => h (Except.error.inj hx))
  | .ok x, .ok y =>
    if h : x = y then .isTrue (h ▸ rfl)
    else .isFalse (fun hx => h (Except.ok.inj hx))
  | .error _, .ok _ => .isFalse (fun hx => Except.noConfusion hx)
  | .ok _, .error _ => .isFalse (fun hx => Except.noConfusion hx)

instance {ε α : Type} [DecidableEq ε] [DecidableEq α] :
    DecidableEq (Except ε α) := exceptDecEq

/-- `pd.to_datetime(column, format = "%d/%b/%Y:%H:%M:%S")` over the
extracted click_time column: NaN stays NaT, a string that fails the fixed
layout raises `ValueError` for the whole call (modelled as `Except.error`).
The message text is an abbreviation of the pandas one. -/
def to_datetime_col : List (Option String) → Except String (List (Option DT))
  | [] => .ok []
  | none :: t => (to_datetime_col t).map (fun r => none :: r)
  | some s :: t =>
    match strptimeLog s with
    | some d => (to_datetime_col t).map (fun r => some d :: r)
    | none => .error ("ValueError: time data " ++ s ++ " does not match format")

/-! ## `format_ezproxy` (source lines 143-186) -/

/-- One parsed record after timestamp and null-token normalization: a row
of the valid dataframe returned by `format_ezproxy`. -/
structure LogRec where
  ip_address : Option String
  username : Option String
  click_time : Option DT
  request : Option String
  http_code : Option String
  library_session : Option String
  referrer : Option String
  county : Option String
  state : Option String
  city : Option String
  ezproxy_session : Option String
  deriving DecidableEq, Repr

/-- `chunk.log.str.extract(regex_log)` for one line: captures on a match,
an all-NaN row otherwise. -/
def extractRow (line : String) : Caps :=
  match reMatch regex_log line with
  | some c => c
  | none => emptyCaps

/-- `valid = pd.notnull(df_logs.request)` for one line. -/
def validLine (line : String) : Bool := (extractRow line).request.isSome

/-- `df.replace({"-": np.NaN})` followed by `df.replace({" ": np.NaN})`
on one string field (exact-value replacement). -/
def nullTok (x : Option String) : Option String :=
  match x with
  | some "-" => none
  | some " " => none
  | _ => x

/-- Assemble one row of the valid dataframe from its extracted captures
and its normalized click_time. -/
def normalizeRow (c : Caps) (d : Option DT) : LogRec :=
  { ip_address := nullTok c.ip_address
    username := nullTok c.username
    click_time := d
    request := nullTok c.request
    http_code := nullTok c.http_code
    library_session := nullTok c.library_session
    referrer := nullTok c.referrer
    county := nullTok c.county
    state := nullTok c.state
    city := nullTok c.city
    ezproxy_session := nullTok c.ezproxy_session }

/-- The extracted click_time column of the valid partition, after the
inner `str.extract` (source line 178). -/
def ctColumn (valids : List Caps) : List (Option String) :=
  valids.map (fun c => c.click_time.bind innerExtract)

/-- `format_ezproxy(chunk)`: extract fields with `regex_log`, split the
chunk into valid rows (request non-null) and invalid raw lines, normalize
the click_time column (which may raise, aborting the whole chunk), then
replace the null-indicator tokens.  Invalid rows keep the verbatim line. -/
def format_ezproxy (chunk : List String) :
    Except String (List LogRec × List String) :=
  match to_datetime_col
      (ctColumn ((chunk.filter (fun l => validLine l)).map extractRow)) with
  | .error e => .error e
  | .ok dts =>
    .ok (List.zipWith normalizeRow
          ((chunk.filter (fun l => validLine l)).map extractRow) dts,
         chunk.filter (fun l => !validLine l))

/-! ## The SQL sink and `process_log` (source lines 189-295)

Times on the processing timeline are opaque integers.  The sink is the
set of tables the script touches: one table per `log_type` holding tagged
valid rows, the shared `invalid_logs` table, and the `processing_time`
run ledger.  `conn.execute` deletes become list filters, `to_sql` appends
become list concatenation. -/

/-- A valid row as inserted into the `log_type` table: the parsed record
plus the `file_path` and `processing_start_time` tags (source lines
225-226). -/
structure TaggedLog where
  row : LogRec
  file_path : String
  processing_start_time : Int
  deriving DecidableEq, Repr

/-- A row of `invalid_logs`: the raw line plus the tags added at source
lines 229-231. -/
structure TaggedInvalid where
  log : String
  processing_start_time : Int
  log_type : String
  file_path : String
  deriving DecidableEq, Repr

/-- A row of the `processing_time` ledger (source lines 277-285). -/
structure RunRow where
  file_path : String
  log_type : String
  processing_start_time : Int
  processing_end_time : Int
  valid : Bool
  num_of_logs : Nat
  num_invalid : Nat
  error : Option String
  deriving DecidableEq, Repr

/-- The sink state: per-log-type tables (each valid row stored with the
name of the table it was appended to), `invalid_logs`, and
`processing_time`. -/
structure Sink where
  tables : List (String × TaggedLog)
  invalid_logs : List TaggedInvalid
  processing_time : List RunRow
  deriving DecidableEq, Repr

/-- `Delete from {log_type} where file_path = '{file_path}'` followed by
`Delete from invalid_logs where file_path = '{file_path}'` (the rollback
pair, source lines 251-254 and 268-271). -/
def rollbackDeletes (log_type file_path : String) (s : Sink) : Sink :=
  { s with
    tables := s.tables.filter
      (fun r => !(r.1 == log_type && r.2.file_path == file_path))
    invalid_logs := s.invalid_logs.filter
      (fun r => !(r.file_path == file_path)) }

/-- `Delete from processing_time where file_path = '{file_path}' and
valid = 0` (source lines 246-247). -/
def purgeInvalidRuns (file_path : String) (s : Sink) : Sink :=
  { s with
    processing_time := s.processing_time.filter
      (fun r => !(r.file_path == file_path && r.valid == false)) }

/-- How the `try` block of `process_log` ends. -/
inductive LoopExit where
  | ok
  | err (msg : String)
  | intr
  deriving DecidableEq, Repr

/-- Result of one `process_log` call: a normal return (the constructed
processing record, inserted in production or printed otherwise), or a
propagated `KeyboardInterrupt`. -/
inductive PLResult where
  | done (run : RunRow)
  | cancelled
  deriving DecidableEq, Repr

/-- The chunk loop of `process_log` (source lines 223-242).  `chunks` is
the sequence of line batches yielded by the `read_csv` chunker;
`interrupt_at = some i` models a `KeyboardInterrupt` arriving while chunk
`i` is being processed; a chunk on which `format_log` raises ends the
loop with that error.  Returns the exit kind, the accumulated
`num_of_logs` and `num_invalid`, and the sink. -/
def chunkLoop (file_path log_type : String) (is_production : Bool)
    (format_log : List String → Except String (List LogRec × List String))
    (interrupt_at : Option Nat) (t_start : Int) :
    List (List String) → Nat → Nat → Nat → Sink →
    LoopExit × Nat × Nat × Sink
  | [], _, nl, ni, s => (.ok, nl, ni, s)
  | c :: rest, i, nl, ni, s =>
    if interrupt_at == some i then (.intr, nl, ni, s)
    else
      match format_log c with
      | .error e => (.err e, nl, ni, s)
      | .ok (v, inv) =>
        let nl2 := nl + v.length
        let ni2 := ni + inv.length
        let s2 :=
          if is_production then
            { s with
              tables := s.tables ++ v.map
                (fun r => (log_type,
                  { row := r, file_path := file_path,
                    processing_start_time := t_start : TaggedLog })),
              invalid_logs := s.invalid_logs ++ inv.map
                (fun l =>
                  { log := l, processing_start_time := t_start,
                    log_type := log_type, file_path := file_path :
                    TaggedInvalid }) }
          else s
        chunkLoop file_path log_type is_production format_log interrupt_at
          t_start rest (i + 1) nl2 ni2 s2

/-- `process_log(file_path, log_type, is_production, format_log)`
(source lines 189-295).  `invalid_files` is the module-level set read
from the ledger; `t_start`/`t_end` are the two `datetime.now()` values;
`s0` is the sink before the call.  On a `KeyboardInterrupt` the rollback
deletes run and the interrupt is re-raised without a run record; on any
other error the rollback deletes run, `valid` is set false and the error
message kept; in all non-cancelled outcomes exactly one processing record
is constructed and, in production only, appended to `processing_time`. -/
def process_log (file_path log_type : String) (is_production : Bool)
    (format_log : List String → Except String (List LogRec × List String))
    (invalid_files : List String) (chunks : List (List String))
    (interrupt_at : Option Nat) (t_start t_end : Int) (s0 : Sink) :
    PLResult × Sink :=
  match chunkLoop file_path log_type is_production format_log interrupt_at
      t_start chunks 0 0 0 s0 with
  | (.intr, _, _, s1) => (.cancelled, rollbackDeletes log_type file_path s1)
  | (.ok, nl, ni, s1) =>
    let s2 := if file_path ∈ invalid_files then purgeInvalidRuns file_path s1
              else s1
    let run : RunRow :=
      { file_path := file_path, log_type := log_type,
        processing_start_time := t_start, processing_end_time := t_end,
        valid := true, num_of_logs := nl, num_invalid := ni, error := none }
    let s3 := if is_production then
                { s2 with processing_time := s2.processing_time ++ [run] }
              else s2
    (.done run, s3)
  | (.err e, nl, ni, s1) =>
    let s2 := rollbackDeletes log_type file_path s1
    let run : RunRow :=
      { file_path := file_path, log_type := log_type,
        processing_start_time := t_start, processing_end_time := t_end,
        valid := false, num_of_logs := nl, num_invalid := ni,
        error := some e }
    let s3 := if is_production then
                { s2 with processing_time := s2.processing_time ++ [run] }
              else s2
    (.done run, s3)

/-! ## Python call binding (needed for the two arity/keyword slips) -/

/-- Does a Python call with `npos` positional arguments and the given
keyword-argument names bind against a parameter list with no defaults?
Positional arguments fill parameters left to right; every remaining
parameter must be supplied by a keyword of exactly its name, and every
keyword must name a parameter not already filled. -/
def pyBind (params : List String) (npos : Nat) (kwargs : List String) :
    Bool :=
  npos ≤ params.length &&
  kwargs.all (fun k => (params.drop npos).contains k) &&
  (params.drop npos).all (fun p => kwargs.contains p)

/-- The parameter list of `def process_log(file_path, log_type,
is_production, format_log)` (source line 189). -/
def process_log_params : List String :=
  ["file_path", "log_type", "is_production", "format_log"]

/-- The parameter list of `def ingest_ezproxy(is_production)`
(source line 30). -/
def ingest_ezproxy_params : List String := ["is_production"]

/-! ## The run driver (source lines 360-384) -/

/-- What the driver loop does with one file. -/
inductive DriverEvent where
  | skipped (file_path : String)
  deriving DecidableEq, Repr

/-- The call site `process_log(file_path, log_type, format_log)` at
source line 384: three positional arguments against
`process_log_params`.  If the binding fails, Python raises `TypeError`
before the body of `process_log` runs. -/
def callProcessLog3 : Except String Unit :=
  if pyBind process_log_params 3 [] then .ok ()
  else .error "TypeError: process_log() missing 1 required positional argument"

/-- The inner file loop of the driver: skip files in `processed_files`
(printing `Existing log:`), otherwise perform the `process_log` call
site; an uncaught exception from the call aborts the whole loop. -/
def driveFiles (processed_files : List String) :
    List String → List DriverEvent × Option String
  | [] => ([], none)
  | f :: rest =>
    if f ∈ processed_files then
      let (evs, ab) := driveFiles processed_files rest
      (.skipped f :: evs, ab)
    else
      match callProcessLog3 with
      | .error e => ([], some e)
      | .ok _ =>
        let (evs, ab) := driveFiles processed_files rest
        (evs, ab)

/-- The module-level driver loop: for each `(log_directory, log_type)`
config entry, enumerate files recursively (`list_files`, modelled by the
`listf` map) and run the file loop; an abort stops later config entries
too. -/
def run_driver (config : List (String × String))
    (processed_files : List String) (listf : String → List String) :
    List DriverEvent × Option String :=
  match config with
  | [] => ([], none)
  | (dir, _) :: rest =>
    match driveFiles processed_files (listf dir) with
    | (evs, some e) => (evs, some e)
    | (evs, none) =>
      let (evs2, ab) := run_driver rest processed_files listf
      (evs ++ evs2, ab)

/-! ## The file synchronizer `ingest_ezproxy` (source lines 30-115)

Modification times are epoch seconds (`os.path.getmtime`);
`datetime.fromtimestamp` is order-preserving, so comparisons between the
resulting datetimes coincide with integer comparisons, and
`datetime.timedelta(days=1)` is 86400 seconds.  `epoch2000` is the value
of `datetime.strptime("2000-01-01 00:00:00", "%Y-%m-%d %H:%M:%S")` on
that axis. -/

/-- The default watermark `2000-01-01 00:00:00` as epoch seconds (UTC). -/
def epoch2000 : Int := 946684800

/-- `datetime.timedelta(days=1)` in seconds. -/
def oneDay : Int := 86400

/-- A directory entry with its `os.path.getmtime` value. -/
structure FileEntry where
  path : String
  mtime : Int
  deriving DecidableEq, Repr

/-- The file systems the synchronizer sees: `archiveFiles d` is the
recursive `os.walk` listing beneath destination `d` on the LLAP server,
`sourceEntries` is `os.listdir` of the library-server log directory. -/
structure SyncEnv where
  archiveFiles : String → List FileEntry
  sourceEntries : List FileEntry

/-- The `logs` list of source line 52: log type and path pattern. -/
def syncLogs : List (String × String) :=
  [("proxyLogs", "\\ezproxy\\proxylogs"), ("accessLogs", "\\ezproxy\\access.log")]

/-- `libraryLogsDirectory` (source line 46). -/
def libraryLogsDirectory : String :=
  "\\\\ulib-logs.m.storage.umich.edu\\ulib-logs\\archive\\sherry.umdl.umich.edu\\l\\local\\logs\\ezproxy"

/-- `os.path.join(r"\\isr-llap", "LibraryLogs_RAW", "ezproxy", log_type)`. -/
def destinationPath (log_type : String) : String :=
  "\\\\isr-llap\\LibraryLogs_RAW\\ezproxy\\" ++ log_type

/-- Is `p` a contiguous sublist starting at some position of the second
list?  (Helper for Python's `in` on strings.) -/
def subAt (p : List Char) : List Char → Bool
  | [] => p.isEmpty
  | c :: t => List.isPrefixOf p (c :: t) || subAt p t

/-- `pattern in wholePath`: substring containment. -/
def strContains (pat s : String) : Bool := subAt pat.data s.data

/-- The `edit_time` list built by the `os.walk` loop (source lines
71-79): the modification times of every file under the destination. -/
def editTimes (env : SyncEnv) (dest : String) : List Int :=
  (env.archiveFiles dest).map (fun f => f.mtime)

/-- Python `max` over a non-empty list (left fold). -/
def pyMax : List Int → Int
  | [] => 0
  | x :: t => t.foldl (fun a b => if b > a then b else a) x

/-- `lastTimestamp` (source lines 82-85): the maximum edit time, or the
year-2000 default when the destination holds no files. -/
def lastTimestamp (env : SyncEnv) (dest : String) : Int :=
  if (editTimes env dest).length > 0 then pyMax (editTimes env dest)
  else epoch2000

/-- One action of the synchronizer: `os.popen(copyCommand)` in
production, or the two dry-run prints. -/
inductive SyncAction where
  | copied (cmd : String)
  | logged (cmd : String) (mtime : Int) (path : String)
  deriving DecidableEq, Repr

/-- `wholePath` of a source entry. -/
def wholePath (f : FileEntry) : String :=
  libraryLogsDirectory ++ "\\" ++ f.path

/-- The `copy` shell command built at source line 100. -/
def copyCommand (f : FileEntry) (dest : String) : String :=
  "copy " ++ wholePath f ++ " " ++ dest

/-- The inner file loop of the synchronizer for one log type (source
lines 88-115): a source entry whose whole path contains the pattern is
copied (production) or logged (dry run) exactly when its modification
time is strictly above the watermark and strictly below
`todayTimestamp - timedelta(days=1)`. -/
def syncOneLog (is_production : Bool) (today : Int) (env : SyncEnv)
    (log_type pattern : String) : List SyncAction :=
  env.sourceEntries.filterMap (fun f =>
    if strContains pattern (wholePath f) then
      if f.mtime > lastTimestamp env (destinationPath log_type) &&
          f.mtime < today - oneDay then
        if is_production then
          some (.copied (copyCommand f (destinationPath log_type)))
        else
          some (.logged (copyCommand f (destinationPath log_type)) f.mtime
            (wholePath f))
      else none
    else none)

/-- The loop over `logs` (source lines 55-115), reached only if the
`todayTimestamp` assignment had succeeded. -/
def ingest_ezproxy_sync (is_production : Bool) (today : Int)
    (env : SyncEnv) : List SyncAction :=
  syncLogs.flatMap (fun lt => syncOneLog is_production today env lt.1 lt.2)

/-- The attribute names of the Python standard-library class
`datetime.datetime` (source line 20 imports the class, not the module).
Only its membership test matters here: the class has no attribute named
`datetime`. -/
def datetime_class_attrs : List String :=
  ["min", "max", "resolution", "today", "now", "utcnow", "fromtimestamp",
   "utcfromtimestamp", "fromordinal", "combine", "fromisoformat",
   "fromisocalendar", "strptime", "date", "time", "timetz", "replace",
   "astimezone", "isoformat", "year", "month", "day", "hour", "minute",
   "second", "microsecond", "tzinfo", "fold", "ctime", "strftime",
   "timestamp", "weekday", "isoweekday", "isocalendar", "toordinal",
   "timetuple", "utctimetuple", "tzname", "utcoffset", "dst"]

/-- `ingest_ezproxy(is_production)` (source lines 30-115): the body
first evaluates `datetime.datetime.now()` (source line 49).  Because the
name `datetime` is bound to the class, the attribute lookup
`datetime.datetime` fails, raising `AttributeError` before any directory
scan or copy; otherwise the synchronizer loop would run with the
obtained timestamp. -/
def ingest_ezproxy (is_production : Bool) (now : Int) (env : SyncEnv) :
    Except String (List SyncAction) :=
  if datetime_class_attrs.contains "datetime" then
    .ok (ingest_ezproxy_sync is_production now env)
  else
    .error "AttributeError: type object datetime has no attribute datetime"

/-! ## Helper lemmas -/

/-- With the production flag off, the chunk loop never touches the sink. -/
theorem chunkLoop_sink_of_not_prod (fp lt : String)
    (fl : List String → Except String (List LogRec × List String))
    (ia : Option Nat) (t1 : Int) :
    ∀ (chunks : List (List String)) (i nl ni : Nat) (s : Sink),
      (chunkLoop fp lt false fl ia t1 chunks i nl ni s).2.2.2 = s := by
  intro chunks
  induction chunks with
  | nil => intro i nl ni s; rfl
  | cons c rest ih =>
    intro i nl ni s
    simp only [chunkLoop]
    split
    · rfl
    · split
      · rfl
      · simpa using ih (i + 1) _ _ s

/-- The chunk loop only appends to the data tables; the `processing_time`
ledger is untouched until the loop is over. -/
theorem chunkLoop_processing_time (fp lt : String) (b : Bool)
    (fl : List String → Except String (List LogRec × List String))
    (ia : Option Nat) (t1 : Int) :
    ∀ (chunks : List (List String)) (i nl ni : Nat) (s : Sink),
      (chunkLoop fp lt b fl ia t1 chunks i nl ni s).2.2.2.processing_time =
        s.processing_time := by
  intro chunks
  induction chunks with
  | nil => intro i nl ni s; rfl
  | cons c rest ih =>
    intro i nl ni s
    simp only [chunkLoop]
    split
    · rfl
    · split
      · rfl
      · rw [ih]
        split <;> rfl

/-- Rollback deletes do not touch the run ledger. -/
theorem rollbackDeletes_processing_time (lt fp : String) (s : Sink) :
    (rollbackDeletes lt fp s).processing_time = s.processing_time := rfl

/-- Filtering by `p` after keeping only `q`-elements gives nothing when
`p` rejects every `q`-element of the list. -/
theorem filter_filter_nil {α : Type} (p q : α → Bool) (l : List α)
    (h : ∀ a ∈ l, q a = true → p a = false) :
    (l.filter q).filter p = [] := by
  induction l with
  | nil => rfl
  | cons a t ih =>
    by_cases hq : q a = true
    · rw [List.filter_cons, if_pos hq, List.filter_cons,
        h a (by simp) hq]
      simp only [Bool.false_eq_true, if_false]
      exact ih (fun b hb => h b (by simp [hb]))
    · rw [List.filter_cons, if_neg hq]
      exact ih (fun b hb => h b (by simp [hb]))

/-! ## Claim C10 -/

/-- Claim C10: every invocation of `ingest_ezproxy` raises before scanning
or copying anything: the body evaluates `datetime.datetime.now()` although
only the `datetime` class is imported (so the attribute lookup fails), and
the module-level call passes the keyword `isproduction`, which does not
bind against the parameter `is_production`; hence the synchronizer never
copies or logs a file. -/
theorem C10_ingest_never_copies :
    pyBind ingest_ezproxy_params 0 ["isproduction"] = false ∧
    ∀ (b : Bool) (now : Int) (env : SyncEnv),
      ingest_ezproxy b now env =
        .error "AttributeError: type object datetime has no attribute datetime" := by
  refine ⟨by decide, fun b now env => ?_⟩
  unfold ingest_ezproxy
  split
  · next hc => exact absurd hc (by decide)
  · rfl

/-! ## Claim C2 -/

/-- Claim C2 (code bug): the driver skips files in `processed_files`, but
the call site `process_log(file_path, log_type, format_log)` passes three
positional arguments against the four required parameters of
`process_log`, so the call raises `TypeError` at the first unprocessed
file and the whole driver loop aborts: unprocessed files are never
actually ingested.  (The module would in fact already have died at the
`ingest_ezproxy(isproduction=False)` call, claim C10.) -/
theorem C2_driver_call_slip :
    pyBind process_log_params 3 [] = false ∧
    run_driver [("logdir", "ezproxy")] [] (fun _ => ["fileA", "fileB"]) =
      ([], some "TypeError: process_log() missing 1 required positional argument") ∧
    run_driver [("logdir", "ezproxy")] ["fileA"] (fun _ => ["fileA", "fileB"]) =
      ([.skipped "fileA"],
       some "TypeError: process_log() missing 1 required positional argument") := by
  decide

/-! ## Claim C4 -/

/-- Claim C4: if `process_log` is interrupted by `KeyboardInterrupt`
during any chunk, afterwards no row tagged with the file path remains in
the per-log-type table or in `invalid_logs`, no `processing_time` row is
recorded for the attempt, and the cancellation is propagated. -/
theorem C4_cancellation_rollback (fp lt : String) (b : Bool)
    (fl : List String → Except String (List LogRec × List String))
    (inv : List String) (chunks : List (List String)) (ia : Option Nat)
    (t1 t2 : Int) (s0 : Sink) (nl ni : Nat) (s1 : Sink)
    (h : chunkLoop fp lt b fl ia t1 chunks 0 0 0 s0 = (.intr, nl, ni, s1)) :
    (process_log fp lt b fl inv chunks ia t1 t2 s0).1 = .cancelled ∧
    (∀ r ∈ (process_log fp lt b fl inv chunks ia t1 t2 s0).2.tables,
      r.1 = lt → r.2.file_path ≠ fp) ∧
    (∀ r ∈ (process_log fp lt b fl inv chunks ia t1 t2 s0).2.invalid_logs,
      r.file_path ≠ fp) ∧
    (process_log fp lt b fl inv chunks ia t1 t2 s0).2.processing_time =
      s0.processing_time := by
  have hpt := chunkLoop_processing_time fp lt b fl ia t1 chunks 0 0 0 s0
  rw [h] at hpt
  unfold process_log
  rw [h]
  refine ⟨rfl, ?_, ?_, ?_⟩
  · intro r hr hlt
    simp only [rollbackDeletes, List.mem_filter] at hr
    have := hr.2
    simp only [Bool.not_eq_true', Bool.and_eq_false_iff, beq_eq_false_iff_ne,
      ne_eq] at this
    intro hfp
    rcases this with h1 | h2
    · exact h1 hlt
    · exact h2 hfp
  · intro r hr
    simp only [rollbackDeletes, List.mem_filter] at hr
    have := hr.2
    simpa using this
  · simpa [rollbackDeletes] using hpt

/-- Witness for C4 at a concrete input: one chunk, interrupt arriving
during chunk 0. -/
theorem C4_witness :
    (process_log "f" "ezproxy" true format_ezproxy [] [["hello"]] (some 0)
      10 20 ⟨[], [], []⟩).1 = .cancelled :=
  (C4_cancellation_rollback "f" "ezproxy" true format_ezproxy [] [["hello"]]
    (some 0) 10 20 ⟨[], [], []⟩ 0 0 ⟨[], [], []⟩ (by decide)).1

/-! ## Claim C1 -/

/-- A prior failed-run row for file `f`. -/
def runRowC1 : RunRow :=
  { file_path := "f", log_type := "ezproxy", processing_start_time := 0,
    processing_end_time := 0, valid := false, num_of_logs := 0,
    num_invalid := 0, error := some "boom" }

/-- A sink that already holds the failed-run row for `f`. -/
def sinkC1 : Sink := ⟨[], [], [runRowC1]⟩

/-- Counterexample to claim C1: with `is_production = False`, a file that
is in `invalid_files` and processes cleanly still triggers the
`Delete from processing_time ... and valid = 0` statement — a sink row is
deleted in non-production mode, because that `conn.execute` is not gated
by the production flag. -/
theorem C1_counterexample :
    sinkC1.processing_time = [runRowC1] ∧
    (process_log "f" "ezproxy" false format_ezproxy ["f"] [["hello"]] none
      10 20 sinkC1).2.processing_time = [] := by
  decide

/-- Claim C1 as amended: with `is_production = false` no row is ever
inserted into any sink table — each final table is a sublist of the
initial one — but rows may still be deleted, since the invalid-run
cleanup and the two rollback deletes run regardless of the flag. -/
theorem C1_amended (fp lt : String)
    (fl : List String → Except String (List LogRec × List String))
    (inv : List String) (chunks : List (List String)) (ia : Option Nat)
    (t1 t2 : Int) (s0 : Sink) :
    ((process_log fp lt false fl inv chunks ia t1 t2 s0).2.tables.Sublist
      s0.tables) ∧
    ((process_log fp lt false fl inv chunks ia t1 t2 s0).2.invalid_logs.Sublist
      s0.invalid_logs) ∧
    ((process_log fp lt false fl inv chunks ia t1 t2
      s0).2.processing_time.Sublist s0.processing_time) := by
  have hs := chunkLoop_sink_of_not_prod fp lt fl ia t1 chunks 0 0 0 s0
  rcases hc : chunkLoop fp lt false fl ia t1 chunks 0 0 0 s0 with ⟨ex, nl, ni, s1⟩
  have hs1 : s1 = s0 := by rw [hc] at hs; exact hs
  unfold process_log
  rw [hc]
  subst hs1
  cases ex with
  | intr =>
    exact ⟨List.filter_sublist _, List.filter_sublist _, List.Sublist.refl _⟩
  | ok =>
    by_cases hm : fp ∈ inv
    · simp only [hm, if_true]
      exact ⟨List.Sublist.refl _, List.Sublist.refl _, List.filter_sublist _⟩
    · simp only [hm, if_false]
      exact ⟨List.Sublist.refl _, List.Sublist.refl _, List.Sublist.refl _⟩
  | err e =>
    exact ⟨List.filter_sublist _, List.filter_sublist _, List.Sublist.refl _⟩

/-! ## Claim C3 -/

/-- Claim C3: if `process_log` hits a non-cancellation error partway
through its chunks (in production mode, where rows are actually written),
afterwards no row tagged with the file path remains in the per-log-type
table or in `invalid_logs`, and exactly one `processing_time` row is
recorded for the attempt, with `valid = false` and the error message
preserved. -/
theorem C3_error_rollback (fp lt : String)
    (fl : List String → Except String (List LogRec × List String))
    (inv : List String) (chunks : List (List String)) (ia : Option Nat)
    (t1 t2 : Int) (s0 : Sink) (e : String) (nl ni : Nat) (s1 : Sink)
    (h : chunkLoop fp lt true fl ia t1 chunks 0 0 0 s0 = (.err e, nl, ni, s1)) :
    (process_log fp lt true fl inv chunks ia t1 t2 s0).1 =
      .done ⟨fp, lt, t1, t2, false, nl, ni, some e⟩ ∧
    (∀ r ∈ (process_log fp lt true fl inv chunks ia t1 t2 s0).2.tables,
      r.1 = lt → r.2.file_path ≠ fp) ∧
    (∀ r ∈ (process_log fp lt true fl inv chunks ia t1 t2 s0).2.invalid_logs,
      r.file_path ≠ fp) ∧
    (process_log fp lt true fl inv chunks ia t1 t2 s0).2.processing_time =
      s0.processing_time ++ [⟨fp, lt, t1, t2, false, nl, ni, some e⟩] := by
  have hpt := chunkLoop_processing_time fp lt true fl ia t1 chunks 0 0 0 s0
  rw [h] at hpt
  have hpt2 : s1.processing_time = s0.processing_time := hpt
  unfold process_log
  rw [h]
  refine ⟨rfl, ?_, ?_, ?_⟩
  · show ∀ r ∈ (rollbackDeletes lt fp s1).tables, r.1 = lt → r.2.file_path ≠ fp
    intro r hr hlt
    simp only [rollbackDeletes, List.mem_filter] at hr
    have h2 := hr.2
    simp only [Bool.not_eq_true', Bool.and_eq_false_iff, beq_eq_false_iff_ne,
      ne_eq] at h2
    intro hfp
    rcases h2 with h3 | h4
    · exact h3 hlt
    · exact h4 hfp
  · show ∀ r ∈ (rollbackDeletes lt fp s1).invalid_logs, r.file_path ≠ fp
    intro r hr
    simp only [rollbackDeletes, List.mem_filter] at hr
    simpa using hr.2
  · show (rollbackDeletes lt fp s1).processing_time ++ _ = _
    rw [rollbackDeletes_processing_time, hpt2]

/-- The bad line for the C3 witness: matches the grammar with a non-null
request, but its click_time has a month name `Foo` that fails the fixed
strptime layout, so `format_ezproxy` raises on the chunk. -/
def lineC3 : String :=
  "1.2.3.4 - jdoe [01/Foo/2020:10:00:00 +0000] \"GET /x HTTP/1.1\" 200 123 SESS1 http://ref \"\" x y z"

set_option maxRecDepth 8000 in
/-- Witness for C3 at a concrete input: the attempt fails on chunk 0 and
exactly the failed-run row is appended to `processing_time`. -/
theorem C3_witness :
    (process_log "f" "ezproxy" true format_ezproxy [] [[lineC3]] none 10 20
      ⟨[], [], []⟩).2.processing_time =
      (⟨[], [], []⟩ : Sink).processing_time ++
        [⟨"f", "ezproxy", 10, 20, false, 0, 0,
          some "ValueError: time data 01/Foo/2020:10:00:00 does not match format"⟩] :=
  (C3_error_rollback "f" "ezproxy" format_ezproxy [] [[lineC3]] none 10 20
    ⟨[], [], []⟩
    "ValueError: time data 01/Foo/2020:10:00:00 does not match format" 0 0
    ⟨[], [], []⟩ (by decide)).2.2.2

/-! ## Claim C9 -/

/-- Claim C9: a file recorded in `invalidFiles()` whose `process_log`
attempt completes without error (production mode, and no pre-existing
valid run row for the path, as guaranteed by the driver skip) ends with
zero `processing_time` rows with `valid = false` for that path and
exactly one valid run row for it. -/
theorem C9_promotion (fp lt : String)
    (fl : List String → Except String (List LogRec × List String))
    (inv : List String) (chunks : List (List String)) (ia : Option Nat)
    (t1 t2 : Int) (s0 : Sink) (nl ni : Nat) (s1 : Sink)
    (hmem : fp ∈ inv)
    (h : chunkLoop fp lt true fl ia t1 chunks 0 0 0 s0 = (.ok, nl, ni, s1))
    (hprior : ∀ r ∈ s0.processing_time, r.file_path = fp → r.valid = false) :
    ((process_log fp lt true fl inv chunks ia t1 t2 s0).2.processing_time.filter
      (fun r => r.file_path == fp && !r.valid)) = [] ∧
    ((process_log fp lt true fl inv chunks ia t1 t2 s0).2.processing_time.filter
      (fun r => r.file_path == fp && r.valid)) =
      [⟨fp, lt, t1, t2, true, nl, ni, none⟩] := by
  have hpt := chunkLoop_processing_time fp lt true fl ia t1 chunks 0 0 0 s0
  rw [h] at hpt
  have hpt2 : s1.processing_time = s0.processing_time := hpt
  unfold process_log
  rw [h]
  simp only [if_pos hmem]
  constructor
  · show (List.filter _
      ((purgeInvalidRuns fp s1).processing_time ++ _)) = []
    unfold purgeInvalidRuns
    rw [hpt2, List.filter_append, filter_filter_nil _ _ _
      (fun r _ hq => by
        cases hb : (r.file_path == fp) <;> cases hv : r.valid <;>
          simp_all)]
    simp
  · show (List.filter _
      ((purgeInvalidRuns fp s1).processing_time ++ _)) = _
    unfold purgeInvalidRuns
    rw [hpt2, List.filter_append, filter_filter_nil _ _ _
      (fun r hr _ => by
        by_cases hb : r.file_path = fp
        · have hv := hprior r hr hb
          simp [hb, hv]
        · simp [hb])]
    simp

/-! ## Helper lemmas for the parser claims -/

/-- `to_datetime` preserves the column length when it succeeds. -/
theorem to_datetime_col_length :
    ∀ (xs : List (Option String)) (r : List (Option DT)),
      to_datetime_col xs = .ok r → r.length = xs.length := by
  intro xs
  induction xs with
  | nil =>
    intro r h
    simp only [to_datetime_col] at h
    injection h with h2
    rw [← h2]
    rfl
  | cons x t ih =>
    intro r h
    cases x with
    | none =>
      cases hrec : to_datetime_col t with
      | error e =>
        rw [to_datetime_col, hrec] at h
        exact absurd h (by simp [Except.map])
      | ok r2 =>
        rw [to_datetime_col, hrec] at h
        simp only [Except.map] at h
        injection h with h2
        rw [← h2]
        simp [ih r2 hrec]
    | some s =>
      cases hs : strptimeLog s with
      | none =>
        rw [to_datetime_col, hs] at h
        exact absurd h (by simp)
      | some d =>
        cases hrec : to_datetime_col t with
        | error e =>
          rw [to_datetime_col, hs, hrec] at h
          exact absurd h (by simp [Except.map])
        | ok r2 =>
          rw [to_datetime_col, hs, hrec] at h
          simp only [Except.map] at h
          injection h with h2
          rw [← h2]
          simp [ih r2 hrec]

/-- If `to_datetime` succeeds, every non-null entry of the column parses
under the fixed layout. -/
theorem to_datetime_col_ok_strptime :
    ∀ (xs : List (Option String)) (r : List (Option DT)),
      to_datetime_col xs = .ok r →
      ∀ x ∈ xs, ∀ t, x = some t → strptimeLog t ≠ none := by
  intro xs
  induction xs with
  | nil => intro r _ x hx; simp at hx
  | cons y t ih =>
    intro r h x hx tt hxt
    cases y with
    | none =>
      cases hrec : to_datetime_col t with
      | error e =>
        rw [to_datetime_col, hrec] at h
        exact absurd h (by simp [Except.map])
      | ok r2 =>
        rcases List.mem_cons.mp hx with h1 | h2
        · rw [h1] at hxt; exact absurd hxt (by simp)
        · exact ih r2 hrec x h2 tt hxt
    | some s =>
      cases hs : strptimeLog s with
      | none =>
        rw [to_datetime_col, hs] at h
        exact absurd h (by simp)
      | some d =>
        cases hrec : to_datetime_col t with
        | error e =>
          rw [to_datetime_col, hs, hrec] at h
          exact absurd h (by simp [Except.map])
        | ok r2 =>
          rcases List.mem_cons.mp hx with h1 | h2
          · rw [h1] at hxt
            injection hxt with h3
            rw [← h3, hs]
            simp
          · exact ih r2 hrec x h2 tt hxt

/-- The two complementary filters of a list split its length. -/
theorem filter_length_split {α : Type} (p : α → Bool) (l : List α) :
    (l.filter p).length + (l.filter (fun a => !p a)).length = l.length := by
  induction l with
  | nil => rfl
  | cons a t ih =>
    by_cases hp : p a = true
    · simp only [List.filter_cons, hp, Bool.not_true, Bool.false_eq_true,
        if_true, if_false, List.length_cons]
      omega
    · have hp2 : p a = false := by simpa using hp
      simp only [List.filter_cons, hp2, Bool.not_false, Bool.false_eq_true,
        if_true, if_false, List.length_cons]
      omega

/-- An element of a `zipWith` comes from elements of the two lists. -/
theorem mem_zipWith_exists {α β γ : Type} (f : α → β → γ) (c : γ) :
    ∀ (as : List α) (bs : List β), c ∈ List.zipWith f as bs →
      ∃ a ∈ as, ∃ b ∈ bs, c = f a b := by
  intro as
  induction as with
  | nil => intro bs h; simp at h
  | cons a t ih =>
    intro bs h
    cases bs with
    | nil => simp at h
    | cons b tb =>
      rw [List.zipWith_cons_cons] at h
      rcases List.mem_cons.mp h with h1 | h2
      · exact ⟨a, by simp, b, by simp, h1⟩
      · rcases ih tb h2 with ⟨a2, ha, b2, hb, hc⟩
        exact ⟨a2, by simp [ha], b2, by simp [hb], hc⟩

/-- The null-token replacement turns `some x` into `none` only for the
two placeholder tokens. -/
theorem nullTok_some_eq_none (x : String) (h : nullTok (some x) = none) :
    x = "-" ∨ x = " " := by
  by_cases h1 : x = "-"
  · exact Or.inl h1
  · by_cases h2 : x = " "
    · exact Or.inr h2
    · exfalso
      unfold nullTok at h
      split at h <;> simp_all

/-! ## Claim C5 -/

/-- Claim C5: whenever `format_ezproxy` returns, every input line landed
in exactly one of the two partitions: the number of valid rows plus the
number of invalid rows equals the number of input lines. -/
theorem C5_partition (chunk : List String) (v : List LogRec)
    (i : List String) (h : format_ezproxy chunk = .ok (v, i)) :
    v.length + i.length = chunk.length := by
  unfold format_ezproxy at h
  cases hdt : to_datetime_col
      (ctColumn ((chunk.filter (fun l => validLine l)).map extractRow)) with
  | error e => rw [hdt] at h; exact absurd h (by simp)
  | ok dts =>
    rw [hdt] at h
    injection h with h2
    have hv : List.zipWith normalizeRow
        ((chunk.filter (fun l => validLine l)).map extractRow) dts = v :=
      congrArg Prod.fst h2
    have hi : chunk.filter (fun l => !validLine l) = i :=
      congrArg Prod.snd h2
    have hlen := to_datetime_col_length _ _ hdt
    rw [← hv, ← hi]
    rw [List.length_zipWith, hlen]
    simp only [ctColumn, List.length_map]
    rw [Nat.min_self]
    exact filter_length_split (fun l => validLine l) chunk

/-- Witness for C5 at a concrete input: a one-line chunk whose line fails
the grammar. -/
theorem C5_witness :
    ([] : List LogRec).length + (["hello"] : List String).length =
      (["hello"] : List String).length :=
  C5_partition ["hello"] [] ["hello"] (by decide)

/-! ## Claim C6 -/

/-- A grammar-matching line whose request field is the placeholder
token `-`. -/
def lineC6 : String :=
  "1.2.3.4 - jdoe [01/Jan/2020:10:00:00 +0000] \"-\" 200 123 SESS1 http://ref \"\" x y z"

/-- The row `format_ezproxy` produces for `lineC6`: note the null
request. -/
def recC6 : LogRec :=
  { ip_address := some "1.2.3.4", username := some "jdoe",
    click_time := some ⟨2020, 1, 1, 10, 0, 0⟩, request := none,
    http_code := some "200", library_session := some "SESS1",
    referrer := some "http://ref", county := some "x", state := some "y",
    city := some "z", ezproxy_session := none }

set_option maxRecDepth 8000 in
/-- Counterexample to claim C6: `lineC6` matches the grammar (it is in
the valid partition), yet its record's request field is null, because the
final `replace({"-": NaN})` applies to the request column too. -/
theorem C6_counterexample :
    validLine lineC6 = true ∧
    format_ezproxy [lineC6] = .ok ([recC6], []) ∧
    recC6.request = none := by
  decide

/-- Claim C6 as amended: a record in the valid partition has a non-null
request unless the extracted request was one of the placeholder tokens
`-` or a single space, which the null-token normalization maps to null
(before that replacement the request of every valid row is non-null,
since non-null request is the partition criterion). -/
theorem C6_amended (chunk : List String) (v : List LogRec)
    (i : List String) (h : format_ezproxy chunk = .ok (v, i)) (r : LogRec)
    (hr : r ∈ v) (hnull : r.request = none) :
    ∃ line ∈ chunk, validLine line = true ∧
      ((extractRow line).request = some "-" ∨
       (extractRow line).request = some " ") := by
  unfold format_ezproxy at h
  cases hdt : to_datetime_col
      (ctColumn ((chunk.filter (fun l => validLine l)).map extractRow)) with
  | error e => rw [hdt] at h; exact absurd h (by simp)
  | ok dts =>
    rw [hdt] at h
    injection h with h2
    have hv : List.zipWith normalizeRow
        ((chunk.filter (fun l => validLine l)).map extractRow) dts = v :=
      congrArg Prod.fst h2
    rw [← hv] at hr
    rcases mem_zipWith_exists _ _ _ _ hr with ⟨caps, hcaps, d, _, hrfd⟩
    rcases List.mem_map.mp hcaps with ⟨line, hline, hex⟩
    have hmem : line ∈ chunk := (List.mem_filter.mp hline).1
    have hval : validLine line = true := by
      simpa using (List.mem_filter.mp hline).2
    refine ⟨line, hmem, hval, ?_⟩
    have hreq : nullTok caps.request = none := by
      rw [hrfd] at hnull
      exact hnull
    have hsome : caps.request.isSome = true := by
      rw [← hex]
      unfold validLine at hval
      exact hval
    rcases Option.isSome_iff_exists.mp hsome with ⟨x, hx⟩
    rw [hx] at hreq
    rcases nullTok_some_eq_none x hreq with h5 | h5
    · left; rw [hex, hx, h5]
    · right; rw [hex, hx, h5]

set_option maxRecDepth 8000 in
/-- Witness for the amended C6 at `lineC6`. -/
theorem C6_amended_witness :
    ∃ line ∈ [lineC6], validLine line = true ∧
      ((extractRow line).request = some "-" ∨
       (extractRow line).request = some " ") :=
  C6_amended [lineC6] [recC6] [] (by decide) recC6 (by simp) (by decide)

/-! ## Claim C7 -/

/-- A grammar-matching line with non-null request whose click_time month
name `Foo` defeats the fixed strptime layout. -/
def lineC7 : String :=
  "1.2.3.4 - jdoe [01/Foo/2020:10:00:00 +0000] \"GET /x HTTP/1.1\" 200 123 SESS1 http://ref \"\" x y z"

/-- A grammar-matching line with non-null request whose click_time has a
one-digit day, so the canonical 20-character date-time substring cannot
be extracted at all. -/
def lineC7a : String :=
  "1.2.3.4 - jdoe [1/Jan/2020:10:00:00 +0000] \"GET /x HTTP/1.1\" 200 123 SESS1 http://ref \"\" x y z"

set_option maxRecDepth 8000 in
/-- Counterexample to claim C7: `lineC7` matches the grammar with a
non-null request and its click_time fails the fixed-layout parse, but
instead of routing that line to the invalid partition, `format_ezproxy`
raises and the whole batch aborts. -/
theorem C7_counterexample :
    validLine lineC7 = true ∧
    format_ezproxy [lineC7] =
      .error "ValueError: time data 01/Foo/2020:10:00:00 does not match format" := by
  decide

/-- Claim C7 as amended: a grammar-matching line whose canonical
date-time substring cannot be extracted stays in the valid partition with
a null click_time (it is not routed to invalid); a line whose extracted
substring fails the fixed-layout parse makes `format_ezproxy` raise,
aborting the whole batch (so no partition is returned at all). -/
theorem C7_amended :
    (∀ line : String, validLine line = true →
      (extractRow line).click_time.bind innerExtract = none →
      format_ezproxy [line] =
        .ok ([normalizeRow (extractRow line) none], [])) ∧
    (∀ (chunk : List String) (line t : String), line ∈ chunk →
      validLine line = true →
      (extractRow line).click_time.bind innerExtract = some t →
      strptimeLog t = none →
      ∀ (v : List LogRec) (i : List String),
        format_ezproxy chunk ≠ .ok (v, i)) := by
  constructor
  · intro line hval hct
    unfold format_ezproxy
    have hfil : List.filter (fun l => validLine l) [line] = [line] := by
      simp [List.filter_cons, hval]
    have hfil2 : List.filter (fun l => !validLine l) [line] = [] := by
      simp [List.filter_cons, hval]
    rw [hfil, hfil2]
    have hcol : ctColumn (List.map extractRow [line]) = [none] := by
      simp [ctColumn, hct]
    rw [hcol]
    rfl
  · intro chunk line t hmem hval hct hstrp v i hok
    unfold format_ezproxy at hok
    cases hdt : to_datetime_col
        (ctColumn ((chunk.filter (fun l => validLine l)).map extractRow)) with
    | error e => rw [hdt] at hok; exact absurd hok (by simp)
    | ok dts =>
      have hlmem : line ∈ chunk.filter (fun l => validLine l) :=
        List.mem_filter.mpr ⟨hmem, by simpa using hval⟩
      have hcmem : extractRow line ∈
          (chunk.filter (fun l => validLine l)).map extractRow :=
        List.mem_map_of_mem _ hlmem
      have hctmem : (extractRow line).click_time.bind innerExtract ∈
          ctColumn ((chunk.filter (fun l => validLine l)).map extractRow) :=
        List.mem_map_of_mem _ hcmem
      exact to_datetime_col_ok_strptime _ _ hdt _ hctmem t hct hstrp

set_option maxRecDepth 8000 in
/-- Witness for the amended C7: `lineC7a` (no extractable substring)
stays valid with a null click_time, and the chunk `[lineC7]` (substring
extracted, layout parse fails) yields no partition. -/
theorem C7_amended_witness :
    format_ezproxy [lineC7a] =
      .ok ([normalizeRow (extractRow lineC7a) none], []) ∧
    format_ezproxy [lineC7] ≠ .ok ([], []) :=
  ⟨C7_amended.1 lineC7a (by decide) (by decide),
   C7_amended.2 [lineC7] lineC7 "01/Foo/2020:10:00:00" (by simp) (by decide)
     (by decide) (by decide) [] []⟩

/-! ## Claim C9 witness input -/

/-- A sink whose ledger holds one failed run for file `f`. -/
def sinkC9 : Sink :=
  ⟨[], [], [⟨"f", "ezproxy", 0, 0, false, 0, 0, some "boom"⟩]⟩

/-- Witness for C9 at a concrete input: after a clean reprocessing of the
previously-invalid file `f`, exactly one valid run row for `f` exists. -/
theorem C9_witness :
    ((process_log "f" "ezproxy" true format_ezproxy ["f"] [["hello"]] none
      10 20 sinkC9).2.processing_time.filter
        (fun r => r.file_path == "f" && r.valid)) =
      [⟨"f", "ezproxy", 10, 20, true, 0, 1, none⟩] :=
  (C9_promotion "f" "ezproxy" format_ezproxy ["f"] [["hello"]] none 10 20
    sinkC9 0 1 ⟨[], [⟨"hello", 10, "ezproxy", "f"⟩],
      [⟨"f", "ezproxy", 0, 0, false, 0, 0, some "boom"⟩]⟩
    (by decide) (by decide) (by decide)).2

/-! ## Claim C8 -/

/-- The fold implementing Python `max` stays in the list (seed
included). -/
theorem foldl_pyMax_mem : ∀ (t : List Int) (x : Int),
    t.foldl (fun a b => if b > a then b else a) x ∈ x :: t := by
  intro t
  induction t with
  | nil => intro x; simp
  | cons b tb ih =>
    intro x
    rw [List.foldl_cons]
    rcases List.mem_cons.mp (ih (if b > x then b else x)) with h1 | h1
    · rw [h1]
      by_cases hb : b > x
      · simp [hb]
      · simp [hb]
    · simp [h1]

/-- The fold implementing Python `max` bounds the seed and every list
element from above. -/
theorem foldl_pyMax_le : ∀ (t : List Int) (x : Int),
    x ≤ t.foldl (fun a b => if b > a then b else a) x ∧
    ∀ y ∈ t, y ≤ t.foldl (fun a b => if b > a then b else a) x := by
  intro t
  induction t with
  | nil => intro x; simp
  | cons b tb ih =>
    intro x
    rw [List.foldl_cons]
    rcases ih (if b > x then b else x) with ⟨hseed, hall⟩
    have hx : x ≤ if b > x then b else x := by
      by_cases hb : b > x
      · simp [hb]; omega
      · simp [hb]
    have hbb : b ≤ if b > x then b else x := by
      by_cases hb : b > x
      · simp [hb]
      · simp [hb]; omega
    refine ⟨le_trans hx hseed, ?_⟩
    intro y hy
    rcases List.mem_cons.mp hy with h1 | h1
    · rw [h1]; exact le_trans hbb hseed
    · exact hall y h1

/-- Collapsing the nested conditionals of the synchronizer loop into a
filter followed by a map. -/
theorem filterMap_two_conds {α β : Type} (c1 c2 : α → Bool) (g : α → β) :
    ∀ l : List α,
      (l.filterMap (fun f =>
        if c1 f then (if c2 f then some (g f) else none) else none)) =
      (l.filter (fun f => c1 f && c2 f)).map g := by
  intro l
  induction l with
  | nil => rfl
  | cons a t ih =>
    rw [List.filterMap_cons, List.filter_cons]
    by_cases h1 : c1 a = true
    · by_cases h2 : c2 a = true
      · simp [h1, h2, ih]
      · have h2f : c2 a = false := by simpa using h2
        simp [h1, h2f, ih]
    · have h1f : c1 a = false := by simpa using h1
      simp [h1f, ih]

/-- Claim C8: in the synchronizer loop for one log type, the watermark
`lastTimestamp` is the maximum modification time of the files under the
archive destination, or the year-2000 default when the archive is empty,
and a pattern-matching source file is acted upon (copied in production,
logged in dry run) exactly when its modification time is strictly above
the watermark and strictly below `today - 1 day`.  (The enclosing
function dies before this loop — claim C10 — so the loop is stated with
the `todayTimestamp` value as a parameter.) -/
theorem C8_watermark_eligibility (b : Bool) (today : Int) (env : SyncEnv)
    (lt pat : String) :
    (editTimes env (destinationPath lt) = [] →
      lastTimestamp env (destinationPath lt) = epoch2000) ∧
    (editTimes env (destinationPath lt) ≠ [] →
      lastTimestamp env (destinationPath lt) ∈
        editTimes env (destinationPath lt) ∧
      ∀ tm ∈ editTimes env (destinationPath lt),
        tm ≤ lastTimestamp env (destinationPath lt)) ∧
    syncOneLog b today env lt pat =
      (env.sourceEntries.filter (fun f =>
        strContains pat (wholePath f) &&
        (decide (f.mtime > lastTimestamp env (destinationPath lt)) &&
         decide (f.mtime < today - oneDay)))).map
        (fun f =>
          if b then SyncAction.copied (copyCommand f (destinationPath lt))
          else SyncAction.logged (copyCommand f (destinationPath lt))
            f.mtime (wholePath f)) := by
  refine ⟨?_, ?_, ?_⟩
  · intro h
    unfold lastTimestamp
    rw [h]
    simp
  · intro h
    cases hl : editTimes env (destinationPath lt) with
    | nil => exact absurd hl h
    | cons x t =>
      unfold lastTimestamp
      rw [hl]
      simp only [List.length_cons, pyMax]
      have hgt : (0 : Nat) < t.length + 1 := by omega
      rw [if_pos hgt]
      refine ⟨foldl_pyMax_mem t x, fun y hy => ?_⟩
      rcases List.mem_cons.mp hy with h1 | h1
      · rw [h1]; exact (foldl_pyMax_le t x).1
      · exact (foldl_pyMax_le t x).2 y h1
  · cases b
    · exact filterMap_two_conds
        (fun f => strContains pat (wholePath f))
        (fun f => decide (f.mtime > lastTimestamp env (destinationPath lt)) &&
          decide (f.mtime < today - oneDay))
        (fun f => SyncAction.logged (copyCommand f (destinationPath lt))
          f.mtime (wholePath f))
        env.sourceEntries
    · exact filterMap_two_conds
        (fun f => strContains pat (wholePath f))
        (fun f => decide (f.mtime > lastTimestamp env (destinationPath lt)) &&
          decide (f.mtime < today - oneDay))
        (fun f => SyncAction.copied (copyCommand f (destinationPath lt)))
        env.sourceEntries

/-- Archive with two files (watermark 200) for the C8 witness. -/
def envC8 : SyncEnv :=
  { archiveFiles := fun d =>
      if d = destinationPath "proxyLogs" then [⟨"old1", 100⟩, ⟨"old2", 200⟩]
      else [],
    sourceEntries := [⟨"proxylogs2020", 300⟩, ⟨"proxylogs2021", 1000000⟩,
      ⟨"other.txt", 300⟩] }

/-- Empty archive for the C8 witness default-watermark case. -/
def envC8e : SyncEnv :=
  { archiveFiles := fun _ => [], sourceEntries := [] }

/-- Witness for C8 at concrete inputs: a non-empty archive whose
watermark is one of its file times, and an empty archive falling back to
the year-2000 default. -/
theorem C8_witness :
    lastTimestamp envC8 (destinationPath "proxyLogs") ∈
      editTimes envC8 (destinationPath "proxyLogs") ∧
    lastTimestamp envC8e (destinationPath "proxyLogs") = epoch2000 :=
  ⟨((C8_watermark_eligibility false 100000 envC8 "proxyLogs"
      "\\ezproxy\\proxylogs").2.1 (by decide)).1,
   (C8_watermark_eligibility false 100000 envC8e "proxyLogs"
      "\\ezproxy\\proxylogs").1 (by decide)⟩

end EzProxy

